import Mathlib

/-!
Verification of the server-side command dispatch and execution subsystem of
remctld (src/server/commands.c) against its natural-language specification.

Modelling conventions.  A byte string (the contents of an iovec or of a C
string) is a `List Nat`.  Machine strings extracted with xstrndup are
modelled by `cStr`, which truncates at the first nul byte exactly as
strndup does.  Frames emitted to the session sink are collected in a trace
(`List Frame`); transport sends are assumed to succeed.  The operating
system nondeterminism inside server_exec (socketpair, fork, I/O errors,
the exit status of the child) is abstracted by an `ExecOutcome` oracle
whose cases enumerate the exit paths of server_exec, and `execFrames`
computes the frames each path emits.
-/

/-- Byte strings: the payload of an iovec or a C string without its
terminating nul. -/
abbrev Bytes := List Nat

/-- The bytes of the literal string ALL. -/
def ALLb : Bytes := [65, 76, 76]

/-- The bytes of the literal string EMPTY. -/
def EMPTYb : Bytes := [69, 77, 80, 84, 89]

/-- The bytes of the literal string help. -/
def HELPb : Bytes := [104, 101, 108, 112]

/-- Copy of a byte string as made by xstrndup: the copy stops at the first
nul byte, exactly as strndup does on a buffer with an embedded nul. -/
def cStr (s : Bytes) : Bytes := s.takeWhile (fun b => !(b == 0))

/-- The final path segment after the last slash (byte 47), or the whole
string when it has no slash.  Embeds the strrchr idiom used at
src/server/commands.c lines 684-688, 619-623 and 731-735. -/
def basename (p : Bytes) : Bytes :=
  match p with
  | [] => []
  | b :: rest =>
      if 47 ∈ rest then basename rest
      else if b = 47 then rest
      else b :: rest

/-- A configuration line (policy rule), from struct confline as used by
commands.c: the command and subcommand patterns, the program path, the
optional identity to drop to, the stdin argument designator, and the
optional summary and help tokens.  The ACL is consulted through an
external predicate and is not part of the row here. -/
structure Confline where
  command : Bytes
  subcommand : Bytes
  program : Bytes
  user : Option Bytes := none
  uid : Int := 0
  gid : Int := 0
  stdin_arg : Int := 0
  summary : Option Bytes := none
  help : Option Bytes := none
deriving DecidableEq

/-- Embeds line_matches (commands.c lines 322-343): the command field
matches when it is ALL, or equals the request command, or is EMPTY while
the request has no command; when it matches, the same three checks run on
the subcommand field. -/
def line_matches (cline : Confline) (command subcommand : Option Bytes) : Bool :=
  let okay :=
    (cline.command == ALLb)
    || (match command with | some c => cline.command == c | none => false)
    || (command == none && cline.command == EMPTYb)
  if okay then
    (cline.subcommand == ALLb)
    || (match subcommand with | some s => cline.subcommand == s | none => false)
    || (subcommand == none && cline.subcommand == EMPTYb)
  else false

/-- Embeds find_config_line (commands.c lines 351-360): scan the rules in
declaration order and return the first one accepted by line_matches. -/
def find_config_line (config : List Confline) (command subcommand : Option Bytes) :
    Option Confline :=
  match config with
  | [] => none
  | cl :: rest =>
      if line_matches cl command subcommand then some cl
      else find_config_line rest command subcommand

/-- Specification-side restatement of the matching condition, written from
the words of the spec: the command field equals ALL, or equals the request
command literally, or equals EMPTY when the request has no command; and
the same three-way condition holds of the subcommand field. -/
def ruleMatchesSpec (r : Confline) (c s : Option Bytes) : Prop :=
  (r.command = ALLb ∨ (∃ x, c = some x ∧ r.command = x) ∨ (c = none ∧ r.command = EMPTYb))
  ∧ (r.subcommand = ALLb ∨ (∃ x, s = some x ∧ r.subcommand = x)
      ∨ (s = none ∧ r.subcommand = EMPTYb))

theorem line_matches_iff (r : Confline) (c s : Option Bytes) :
    line_matches r c s = true ↔ ruleMatchesSpec r c s := by
  unfold line_matches ruleMatchesSpec
  cases c <;> cases s <;>
    simp [Bool.or_eq_true, beq_iff_eq, and_or_left]

/-- The resolved stdin index used by create_argv_command (commands.c lines
690-693): -1 resolves to the last index of the caller vector; otherwise
the configured value cast to size_t.  A configured value of 0 (or any
other value that is not a valid argument index) matches no loop index
i >= 1, which is also how the C cast behaves for those values. -/
def stdinIndex (cline : Confline) (count : Nat) : Nat :=
  if cline.stdin_arg = -1 then count - 1 else cline.stdin_arg.toNat

/-- The copy made of one caller argument by create_argv_command (lines
699-702): a zero-length argument becomes the empty string, every other
argument is copied with xstrndup. -/
def argCopy (a : Bytes) : Bytes :=
  if a.isEmpty then [] else cStr a

/-- The loop of create_argv_command (lines 694-705): walk the caller
arguments from index 1, splice out the argument at the resolved stdin
index recording it as the stdin payload, and copy every other argument in
order. -/
def buildTail (stdin_arg : Nat) : Nat → List Bytes → List Bytes × Option Bytes
  | _, [] => ([], none)
  | i, a :: rest =>
      let r := buildTail stdin_arg (i + 1) rest
      if i = stdin_arg then (r.1, some a)
      else (argCopy a :: r.1, r.2)

/-- Embeds create_argv_command (commands.c lines 666-707).  Returns the
child argv (the terminating NULL sentinel of the C array is the end of
the list) and the stdin payload stored into process->input. -/
def create_argv_command (cline : Confline) (argv : List Bytes) :
    List Bytes × Option Bytes :=
  let stdin_arg := stdinIndex cline argv.length
  let t := buildTail stdin_arg 1 (argv.drop 1)
  (basename cline.program :: t.1, t.2)

/-- Embeds create_argv_help (commands.c lines 719-745): the argv for a
help invocation is the basename of the program, the command, and the
optional sub-subcommand. -/
def create_argv_help (path : Bytes) (command : Bytes) (subcommand : Option Bytes) :
    List Bytes :=
  match subcommand with
  | none => [basename path, cStr command]
  | some s => [basename path, cStr command, cStr s]

/-- Where the child process standard input comes from. -/
inductive StdinSource where
  | socketPair
  | devNull
deriving DecidableEq

/-- Embeds the child-side stdin setup of server_exec (commands.c lines
447-456): with a stdin payload the shared socket is duplicated onto
descriptor 0, otherwise descriptor 0 is opened on /dev/null read-only so
the child sees immediate EOF. -/
def childStdin : Option Bytes → StdinSource
  | some _ => StdinSource.socketPair
  | none => StdinSource.devNull

/-- Specification-side child argv, written from the words of the spec:
c[0] is the basename of the program of the rule; every subsequent caller
argument is appended in order as a nul-terminated copy, except the
argument at the resolved stdin index, which is skipped. -/
def specChildArgv (cline : Confline) (argv : List Bytes) : List Bytes :=
  basename cline.program ::
    ((List.enumFrom 1 (argv.drop 1)).filterMap fun p =>
      if p.1 = stdinIndex cline argv.length then none else some (argCopy p.2))

/-- Specification-side stdin payload: the caller argument at the resolved
stdin index, raw and uncopied, when such an index exists. -/
def specStdin (cline : Confline) (argv : List Bytes) : Option Bytes :=
  (List.enumFrom 1 (argv.drop 1)).findSome? fun p =>
    if p.1 = stdinIndex cline argv.length then some p.2 else none

theorem buildTail_eq (k : Nat) :
    ∀ (l : List Bytes) (i : Nat),
      buildTail k i l =
        ((List.enumFrom i l).filterMap fun p =>
            if p.1 = k then none else some (argCopy p.2),
         (List.enumFrom i l).findSome? fun p =>
            if p.1 = k then some p.2 else none) := by
  intro l
  induction l with
  | nil => intro i; rfl
  | cons a rest ih =>
      intro i
      by_cases h : i = k
      · subst h
        simp [buildTail, List.enumFrom, ih (i + 1), List.findSome?]
      · simp [buildTail, List.enumFrom, ih (i + 1), h, List.findSome?]

/-- Error codes used by the dispatcher (util/protocol.h as consumed by
commands.c). -/
inductive ErrCode where
  | internal
  | bad_command
  | unknown_command
  | toomany_args
  | access
  | no_help
deriving DecidableEq

/-- Frames emitted to the session sink: error frames, the protocol 1
terminal output frame, protocol two or later streamed output chunks, and
the protocol two or later terminal status frame. -/
inductive Frame where
  | error (code : ErrCode)
  | v1_output (output : Bytes) (status : Int)
  | v2_output (stream : Nat) (chunk : Bytes)
  | v2_status (status : Int)
deriving DecidableEq

/-- A frame is terminal when it is an ERROR, a V1_OUTPUT, or a V2_STATUS;
streamed V2_OUTPUT chunks are not terminal. -/
def Frame.isTerminal : Frame → Bool
  | Frame.v2_output _ _ => false
  | _ => true

/-- Number of terminal frames in a trace. -/
def terminalCount (fs : List Frame) : Nat := (fs.filter Frame.isTerminal).length

/-- The session handle: the negotiated protocol version and the
authenticated user identity. -/
structure Client where
  protocol : Nat
  user : Bytes

/-- Abstraction of one call to server_exec (commands.c lines 384-562).
The cases enumerate its exit paths as driven by the operating system:
socketpair failure, fork failure, an I/O error that broke the event loop,
or a normal run with the translated exit status, the protocol 1
accumulated output buffer, and the protocol two or later stream chunks
observed by the multiplexer. -/
inductive ExecOutcome where
  | spFail
  | forkFail
  | ioError (chunks : List (Nat × Bytes))
  | success (status : Int) (output : Bytes) (chunks : List (Nat × Bytes))
deriving DecidableEq

/-- Whether server_exec returned true for this outcome. -/
def ExecOutcome.ok : ExecOutcome → Bool
  | ExecOutcome.success _ _ _ => true
  | _ => false

/-- The translated exit status stored in process.status by server_exec. -/
def ExecOutcome.statusOf : ExecOutcome → Int
  | ExecOutcome.success s _ _ => s
  | _ => 0

/-- The protocol 1 output buffer (process.output) after a successful
server_exec. -/
def ExecOutcome.v1out : ExecOutcome → Bytes
  | ExecOutcome.success _ out _ => out
  | _ => []

/-- Frames emitted inside one call to server_exec, assuming the transport
sink accepts every frame.  Socketpair and fork failure emit one
ERROR_INTERNAL (lines 404-414, 424-427); an I/O error makes
handle_io_event emit one ERROR_INTERNAL and break the loop (lines
167-173); handle_output forwards each chunk as a V2 output frame for
protocol two or later (lines 79-90), while the protocol 1 handlers only
accumulate into the buffer and emit nothing. -/
def execFrames (client : Client) (o : ExecOutcome) : List Frame :=
  let stream := fun (c : Nat × Bytes) => Frame.v2_output c.1 c.2
  match o with
  | ExecOutcome.spFail => [Frame.error ErrCode.internal]
  | ExecOutcome.forkFail => [Frame.error ErrCode.internal]
  | ExecOutcome.ioError chunks =>
      (if client.protocol = 1 then [] else chunks.map stream)
        ++ [Frame.error ErrCode.internal]
  | ExecOutcome.success _ _ chunks =>
      if client.protocol = 1 then [] else chunks.map stream

/-- Result of one dispatcher run: the trace of frames emitted to the
session, and the child argvs of the server_exec calls performed. -/
structure RunResult where
  frames : List Frame
  launches : List (List Bytes)
deriving DecidableEq

/-- State threaded through the summary sweep loop of server_send_summary
(commands.c lines 600-636): the frames emitted so far, the launches
performed, the ok_any flag, the aggregated status, the protocol 1
concatenated output, and the number of server_exec calls made so far
(which indexes the outcome oracle). -/
structure SweepState where
  frames : List Frame
  launches : List (List Bytes)
  ok_any : Bool
  status_all : Int
  output : Bytes
  k : Nat
deriving DecidableEq

/-- One iteration of the summary sweep loop (lines 600-636): skip rules
whose subcommand is not ALL, rules the ACL denies, and rules without a
summary token; for a qualifying rule set ok_any, run the summary argv
through server_exec, and on success append the protocol 1 output and
record a non-zero status. -/
def sweepStep (client : Client) (permit : Confline → Bytes → Bool)
    (oracle : Nat → ExecOutcome) (st : SweepState) (cl : Confline) : SweepState :=
  if cl.subcommand ≠ ALLb then st
  else if permit cl client.user = false then st
  else
    match cl.summary with
    | none => st
    | some summary =>
        let o := oracle st.k
        { frames := st.frames ++ execFrames client o
          launches := st.launches ++ [[basename cl.program, summary]]
          ok_any := true
          status_all := if o.ok ∧ o.statusOf ≠ 0 then o.statusOf else st.status_all
          output := if o.ok ∧ client.protocol = 1 then st.output ++ o.v1out else st.output
          k := st.k + 1 }

/-- Embeds server_send_summary (commands.c lines 573-655): fold the sweep
over the configuration, then either emit the aggregated terminal frame
when ok_any is set, or reply ERROR_UNKNOWN_COMMAND. -/
def server_send_summary (client : Client) (config : List Confline)
    (permit : Confline → Bytes → Bool) (oracle : Nat → ExecOutcome) :
    List Frame × List (List Bytes) :=
  let st := config.foldl (sweepStep client permit oracle)
    { frames := [], launches := [], ok_any := false, status_all := 0,
      output := [], k := 0 }
  if st.ok_any then
    (st.frames ++
      [if client.protocol = 1 then Frame.v1_output st.output st.status_all
       else Frame.v2_status st.status_all],
     st.launches)
  else
    (st.frames ++ [Frame.error ErrCode.unknown_command], st.launches)

/-- The nul guard over the head of the argument vector (commands.c lines
796-804): neither the command nor the subcommand may contain a nul
byte. -/
def headNul (argv : List Bytes) : Bool :=
  match argv with
  | [] => false
  | [a0] => a0.contains 0
  | a0 :: a1 :: _ => a0.contains 0 || a1.contains 0

/-- The tail nul guard of server_run_command (commands.c lines 845-859),
walking the arguments from index 1: an argument is exempt when a rule
matched and either this is not a help request and the index equals the
stdin_arg of the rule, or this is the last argument and stdin_arg is -1;
every other argument must be free of nul bytes.  Returns true when the
whole vector passes. -/
def nulCheckFrom (cline : Option Confline) (help : Bool) :
    Nat → List Bytes → Bool
  | _, [] => true
  | i, a :: rest =>
      let exempt : Bool :=
        match cline with
        | none => false
        | some cl =>
            (!help && ((i : Int) == cl.stdin_arg))
            || (rest.isEmpty && (cl.stdin_arg == -1))
      (exempt || !(a.contains 0)) && nulCheckFrom cline help (i + 1) rest

/-- The tail of server_run_command once the matched rule (possibly after
the help retry), the help flag, and the help subcommand are known
(commands.c lines 841-912): run the tail nul guard, reply
ERROR_UNKNOWN_COMMAND when no rule matched, consult the ACL, handle the
ERROR_NO_HELP case, assemble the argv, call server_exec, and on success
emit the terminal V1_OUTPUT or V2_STATUS frame.  The pre argument carries
a possible ERROR_TOOMANY_ARGS frame already emitted. -/
def runWithRule (client : Client) (permit : Confline → Bytes → Bool)
    (oracle : Nat → ExecOutcome) (pre : List Frame) (cline : Option Confline)
    (help : Bool) (helpsubcommand : Option Bytes) (argv : List Bytes) : RunResult :=
  if nulCheckFrom cline help 1 (argv.drop 1) = false then
    { frames := pre ++ [Frame.error ErrCode.bad_command], launches := [] }
  else
    match cline with
    | none =>
        { frames := pre ++ [Frame.error ErrCode.unknown_command], launches := [] }
    | some cl =>
        if permit cl client.user = false then
          { frames := pre ++ [Frame.error ErrCode.access], launches := [] }
        else if help then
          match cl.help with
          | none =>
              { frames := pre ++ [Frame.error ErrCode.no_help], launches := [] }
          | some helptok =>
              let req := create_argv_help cl.program helptok helpsubcommand
              let o := oracle 0
              { frames := pre ++ execFrames client o ++
                  (if o.ok then
                    [if client.protocol = 1 then Frame.v1_output o.v1out o.statusOf
                     else Frame.v2_status o.statusOf]
                   else []),
                launches := [req] }
        else
          let t := create_argv_command cl argv
          let o := oracle 0
          { frames := pre ++ execFrames client o ++
              (if o.ok then
                [if client.protocol = 1 then Frame.v1_output o.v1out o.statusOf
                 else Frame.v2_status o.statusOf]
               else []),
            launches := [t.1] }

/-- Embeds server_run_command (commands.c lines 766-928): the empty argv
guard, the head nul guard, token extraction with xstrndup, the rule
lookup with the help fallback (the ERROR_TOOMANY_ARGS reply for an
over-long help request, the summary sweep dispatch, and the help retry
lookup), followed by the common tail runWithRule. -/
def server_run_command (client : Client) (config : List Confline)
    (permit : Confline → Bytes → Bool) (oracle : Nat → ExecOutcome)
    (argv : List Bytes) : RunResult :=
  match argv with
  | [] => { frames := [Frame.error ErrCode.bad_command], launches := [] }
  | a0 :: rest =>
      if headNul (a0 :: rest) then
        { frames := [Frame.error ErrCode.bad_command], launches := [] }
      else
        let command := cStr a0
        let subcommand := rest.head?.map cStr
        match find_config_line config (some command) subcommand with
        | some cl =>
            runWithRule client permit oracle [] (some cl) false none (a0 :: rest)
        | none =>
            if command = HELPb then
              let pre : List Frame :=
                if 4 ≤ (a0 :: rest).length then [Frame.error ErrCode.toomany_args]
                else []
              match rest with
              | [] =>
                  let s := server_send_summary client config permit oracle
                  { frames := pre ++ s.1, launches := s.2 }
              | s1 :: rest2 =>
                  let helpsubcommand := rest2.head?.map cStr
                  runWithRule client permit oracle pre
                    (find_config_line config (some (cStr s1)) helpsubcommand)
                    true helpsubcommand (a0 :: s1 :: rest2)
            else
              runWithRule client permit oracle [] none false none (a0 :: rest)

/-- The saw_output flag after one non-blocking pass of the event loop.
handle_output sets process->saw_output (commands.c line 85) and is
installed as the read callback only for protocol two or later (lines
247-257); for protocol 1 the installed read callbacks are
handle_output_full and handle_output_discard (lines 242-246, 134), which
never touch saw_output.  The processed argument tells whether the pass
invoked a read callback on some child output. -/
def sawOutputFlag (protocol : Nat) (processed : Bool) : Bool :=
  if protocol = 1 then false else processed

/-- The post-exit drain of server_process_output (commands.c lines
283-287): repeatedly clear saw_output and run one non-blocking pass,
continuing while saw_output is set and the loop was not broken.  The
passes are abstracted by two oracles giving, for pass n, whether it
processed child output and whether it broke the loop.  Returns the index
of the last pass performed, or none when the fuel ran out. -/
def drainLoop (protocol : Nat) (passOutput passBreak : Nat → Bool) :
    Nat → Nat → Option Nat
  | 0, _ => none
  | fuel + 1, n =>
      if sawOutputFlag protocol (passOutput n) && !(passBreak n) then
        drainLoop protocol passOutput passBreak fuel (n + 1)
      else some n

/-- Whether a configuration line qualifies for the summary sweep: its
subcommand is exactly ALL, the ACL admits the user, and it defines a
summary token. -/
def qualifies (permit : Confline → Bytes → Bool) (user : Bytes) (cl : Confline) : Bool :=
  (cl.subcommand == ALLb) && permit cl user && cl.summary.isSome

/-- Number of failed outcomes among oracle indices start, start+1, ...,
start+n-1. -/
def failsIn (oracle : Nat → ExecOutcome) (start : Nat) : Nat → Nat
  | 0 => 0
  | n + 1 => (if (oracle start).ok then 0 else 1) + failsIn oracle (start + 1) n

/-- Whether the dispatcher emits the ERROR_TOOMANY_ARGS frame for this
request: the head guards pass, no rule matches the command and
subcommand, the command is help, and the vector has at least four
tokens. -/
def toomanyFlag (config : List Confline) (argv : List Bytes) : Bool :=
  match argv with
  | [] => false
  | a0 :: rest =>
      !(headNul (a0 :: rest))
      && (find_config_line config (some (cStr a0)) (rest.head?.map cStr)).isNone
      && (cStr a0 == HELPb)
      && decide (4 ≤ (a0 :: rest).length)

/-- Whether the request dispatches to the summary sweep: a lone help
token, free of nul bytes, that no rule matches. -/
def isSummaryPath (config : List Confline) (argv : List Bytes) : Bool :=
  match argv with
  | [a0] =>
      !(headNul [a0])
      && (find_config_line config (some (cStr a0)) none).isNone
      && (cStr a0 == HELPb)
  | _ => false

/-- Number of ERROR_INTERNAL frames contributed by failing summary
executions: for a summary request, the failures among the first q oracle
outcomes, where q is the number of qualifying rules; zero otherwise. -/
def summaryFailCount (config : List Confline) (permit : Confline → Bytes → Bool)
    (user : Bytes) (oracle : Nat → ExecOutcome) (argv : List Bytes) : Nat :=
  if isSummaryPath config argv then
    failsIn oracle 0 ((config.filter (qualifies permit user)).length)
  else 0

/-- The rule against which server_run_command resolves the request,
including the help retry (commands.c lines 818-838): the direct lookup
on (command, subcommand), or, when that fails and the command is help
with a subcommand present, the retry lookup on
(subcommand, helpsubcommand). -/
def matchedRule (config : List Confline) (argv : List Bytes) : Option Confline :=
  match argv with
  | [] => none
  | a0 :: rest =>
      match find_config_line config (some (cStr a0)) (rest.head?.map cStr) with
      | some cl => some cl
      | none =>
          if cStr a0 = HELPb then
            match rest with
            | [] => none
            | s1 :: rest2 =>
                find_config_line config (some (cStr s1)) (rest2.head?.map cStr)
          else none

/-- Specification-side exemption from the tail nul guard, written from
the words of the claim: the argument at the stdin_arg index of the
matched rule, or the last argument when the stdin_arg of the matched rule
is -1; no argument is exempt when no rule matched. -/
def exemptSpec (r : Option Confline) (len i : Nat) : Prop :=
  match r with
  | none => False
  | some cl => ((i : Int) = cl.stdin_arg) ∨ (i = len - 1 ∧ cl.stdin_arg = -1)

/-! Shared helper lemmas. -/

theorem cStr_of_nulFree {a : Bytes} (h : (0 : Nat) ∉ a) : cStr a = a := by
  unfold cStr
  induction a with
  | nil => rfl
  | cons b rest ih =>
      simp only [List.mem_cons, not_or] at h
      have hb : (b == 0) = false := beq_eq_false_iff_ne.mpr (fun hb0 => h.1 hb0.symm)
      simp [List.takeWhile, hb, ih h.2]

theorem argCopy_of_nulFree {a : Bytes} (h : (0 : Nat) ∉ a) : argCopy a = a := by
  unfold argCopy
  by_cases he : a.isEmpty
  · simp [List.isEmpty_iff.mp he]
  · simp [he, cStr_of_nulFree h]

theorem buildTail_no_match :
    ∀ (l : List Bytes) (i k : Nat), (∀ j, i ≤ j → j < i + l.length → j ≠ k) →
      buildTail k i l = (l.map argCopy, none) := by
  intro l
  induction l with
  | nil => intro i k _; rfl
  | cons a rest ih =>
      intro i k h
      have hik : i ≠ k := by
        apply h i (Nat.le_refl i)
        simp only [List.length_cons]
        omega
      have hrec := ih (i + 1) k (by
        intro j h1 h2
        apply h j (by omega)
        simp only [List.length_cons]
        omega)
      simp [buildTail, hrec, hik]

theorem terminalCount_append (xs ys : List Frame) :
    terminalCount (xs ++ ys) = terminalCount xs + terminalCount ys := by
  simp [terminalCount, List.filter_append]

theorem terminalCount_chunks (chunks : List (Nat × Bytes)) :
    terminalCount (chunks.map fun c => Frame.v2_output c.1 c.2) = 0 := by
  induction chunks with
  | nil => rfl
  | cons c rest ih => simpa [terminalCount, List.filter, Frame.isTerminal] using ih

theorem execFrames_terminalCount (client : Client) (o : ExecOutcome) :
    terminalCount (execFrames client o) = if o.ok then 0 else 1 := by
  cases o with
  | spFail => rfl
  | forkFail => rfl
  | ioError chunks =>
      simp only [execFrames, ExecOutcome.ok, terminalCount_append]
      by_cases hp : client.protocol = 1
      · simp [hp, terminalCount, List.filter, Frame.isTerminal]
      · rw [if_neg hp, terminalCount_chunks]
        rfl
  | success s out chunks =>
      simp only [execFrames, ExecOutcome.ok]
      by_cases hp : client.protocol = 1
      · simp [hp, terminalCount, List.filter]
      · simp [hp, terminalCount_chunks]

theorem map_argCopy_id {l : List Bytes} (h : ∀ a ∈ l, (0 : Nat) ∉ a) :
    l.map argCopy = l := by
  induction l with
  | nil => rfl
  | cons a rest ih =>
      simp [argCopy_of_nulFree (h a (by simp)), ih (fun b hb => h b (by simp [hb]))]

/-! Fixtures used by the concrete witnesses and counterexamples. -/

/-- Fixture: a rule with literal command and subcommand patterns. -/
def fixRuleLit : Confline := { command := [97], subcommand := [98], program := [112] }

/-- Fixture: a wildcard rule for /bin/echo with no stdin argument. -/
def fixRuleAll : Confline :=
  { command := ALLb, subcommand := ALLb, program := [47, 98, 105, 110, 47, 101, 99, 104, 111] }

/-- Fixture: a cat-style rule whose last argument is delivered on stdin. -/
def fixRuleCat : Confline :=
  { command := [99], subcommand := ALLb, program := [99, 97, 116], stdin_arg := -1 }

/-- Fixture: a rule whose stdin index lies beyond any short vector. -/
def fixRuleFive : Confline := { command := [99], subcommand := ALLb, program := [112], stdin_arg := 5 }

/-- Fixture: a wildcard rule with a summary token. -/
def fixRuleSum : Confline :=
  { command := [99], subcommand := ALLb, program := [112], summary := some [115] }

/-- Fixture: a protocol 2 session for user u. -/
def fixClient2 : Client := { protocol := 2, user := [117] }

/-- Fixture: an ACL that admits everybody. -/
def fixPermitAll : Confline → Bytes → Bool := fun _ _ => true

/-- Fixture: every exec succeeds with status 0 and no output. -/
def fixOracleOk : Nat → ExecOutcome := fun _ => ExecOutcome.success 0 [] []

/-- Fixture: every exec fails at socketpair creation. -/
def fixOracleFail : Nat → ExecOutcome := fun _ => ExecOutcome.spFail

/-- Fixture: the pass processed child output on every pass. -/
def passAlwaysOutput : Nat → Bool := fun _ => true

/-- Fixture: the pass processed child output on the first three passes. -/
def passUntilThree : Nat → Bool := fun n => decide (n < 3)

/-- Fixture: no pass broke the loop. -/
def passNeverBreak : Nat → Bool := fun _ => false

/-! Claim theorems. -/

/-- Claim C4: for every policy table, command and optional subcommand,
find_config_line returns none exactly when no rule satisfies the
three-way command condition and the three-way subcommand condition, and
otherwise returns the earliest rule in declaration order satisfying
both. -/
theorem find_config_line_first_match (config : List Confline) (c s : Option Bytes) :
    (find_config_line config c s = none ↔ ∀ r ∈ config, ¬ ruleMatchesSpec r c s)
    ∧ (∀ r, find_config_line config c s = some r →
        ruleMatchesSpec r c s ∧
        ∃ pre post, config = pre ++ r :: post ∧ ∀ q ∈ pre, ¬ ruleMatchesSpec q c s) := by
  induction config with
  | nil => simp [find_config_line]
  | cons cl rest ih =>
      by_cases hm : line_matches cl c s = true
      · have hmm := (line_matches_iff cl c s).mp hm
        refine ⟨⟨fun hno => ?_, fun hall => ?_⟩, fun r hr => ?_⟩
        · simp [find_config_line, hm] at hno
        · exact absurd hmm (hall cl (by simp))
        · simp only [find_config_line, hm, if_true] at hr
          have hclr : cl = r := Option.some.inj hr
          subst hclr
          exact ⟨hmm, [], rest, rfl, by simp⟩
      · have hnm : ¬ ruleMatchesSpec cl c s := fun hc => hm ((line_matches_iff cl c s).mpr hc)
        have hfind : find_config_line (cl :: rest) c s = find_config_line rest c s := by
          simp [find_config_line, hm]
        refine ⟨?_, ?_⟩
        · rw [hfind, ih.1]
          constructor
          · intro hall r hrm
            rcases List.mem_cons.mp hrm with h1 | h2
            · exact h1 ▸ hnm
            · exact hall r h2
          · intro hall r hrm
            exact hall r (List.mem_cons_of_mem cl hrm)
        · intro r hr
          rw [hfind] at hr
          obtain ⟨hrm, pre, post, heq, hpre⟩ := ih.2 r hr
          refine ⟨hrm, cl :: pre, post, by simp [heq], ?_⟩
          intro q hq
          rcases List.mem_cons.mp hq with h1 | h2
          · exact h1 ▸ hnm
          · exact hpre q h2

/-- Witness for C4 at a concrete policy: the second rule is the earliest
match for command x with no subcommand. -/
theorem find_config_line_first_match_witness :
    ruleMatchesSpec fixRuleAll (some [120]) none ∧
    ∃ pre post, [fixRuleLit, fixRuleAll] = pre ++ fixRuleAll :: post ∧
      ∀ q ∈ pre, ¬ ruleMatchesSpec q (some [120]) none :=
  (find_config_line_first_match [fixRuleLit, fixRuleAll] (some [120]) none).2
    fixRuleAll (by decide)

/-- Claim C5: for every rule and non-empty caller vector, the built child
argv starts with the basename of the program of the rule, appends every
subsequent caller argument in order as a nul-terminated copy (empty
arguments preserved) except the argument at the resolved stdin index
(-1 resolving to the last index), which is skipped and recorded as the
stdin payload; the list end is the null sentinel. -/
theorem create_argv_command_spec (cline : Confline) (argv : List Bytes)
    (h : argv ≠ []) :
    create_argv_command cline argv = (specChildArgv cline argv, specStdin cline argv) := by
  simp [create_argv_command, specChildArgv, specStdin, buildTail_eq]

/-- Witness for C5 at a concrete rule and vector. -/
theorem create_argv_command_spec_witness :
    ([[101], [104, 105]] : List Bytes) ≠ [] ∧
    create_argv_command fixRuleAll [[101], [104, 105]] =
      (specChildArgv fixRuleAll [[101], [104, 105]],
       specStdin fixRuleAll [[101], [104, 105]]) :=
  ⟨by decide, create_argv_command_spec fixRuleAll [[101], [104, 105]] (by decide)⟩

/-- Claim C7: for a rule with no stdin argument (stdin_arg = 0) and
nul-free caller arguments, the child argv after its first entry equals
the caller arguments after the command token, byte for byte and in
order, and no stdin payload is recorded; hence the caller argv minus its
first token is reconstructible from the child argv minus its first
entry. -/
theorem argv_roundtrip_no_stdin (cline : Confline) (argv : List Bytes)
    (h0 : cline.stdin_arg = 0)
    (hnf : ∀ a ∈ argv.drop 1, (0 : Nat) ∉ a) :
    ((create_argv_command cline argv).1.drop 1 = argv.drop 1)
    ∧ (create_argv_command cline argv).2 = none := by
  have hk : stdinIndex cline argv.length = 0 := by simp [stdinIndex, h0]
  have hnm := buildTail_no_match (argv.drop 1) 1 0 (fun j hj _ => by omega)
  have hres : create_argv_command cline argv
      = (basename cline.program :: (argv.drop 1).map argCopy, none) := by
    simp only [create_argv_command, hk, hnm]
  rw [hres]
  refine ⟨?_, rfl⟩
  calc (basename cline.program :: (argv.drop 1).map argCopy).drop 1
      = (argv.drop 1).map argCopy := by simp
    _ = argv.drop 1 := map_argCopy_id hnf

/-- Witness for C7 at a concrete rule and vector. -/
theorem argv_roundtrip_no_stdin_witness :
    fixRuleAll.stdin_arg = 0 ∧
    ((create_argv_command fixRuleAll [[101], [104, 105], []]).1.drop 1
        = [[104, 105], []] )
    ∧ (create_argv_command fixRuleAll [[101], [104, 105], []]).2 = none :=
  ⟨by decide,
   argv_roundtrip_no_stdin fixRuleAll [[101], [104, 105], []] (by decide) (by decide)⟩

/-- Claim C8: when the stdin_arg of the matched rule is -1 and the caller
vector holds only the command token, no stdin payload is recorded and
the child standard input is opened on /dev/null, giving immediate
EOF. -/
theorem stdin_neg_one_no_args (cline : Confline) (cmd : Bytes)
    (h : cline.stdin_arg = -1) :
    (create_argv_command cline [cmd]).2 = none
    ∧ childStdin (create_argv_command cline [cmd]).2 = StdinSource.devNull := by
  simp [create_argv_command, buildTail, childStdin]

/-- Witness for C8 at the cat fixture. -/
theorem stdin_neg_one_no_args_witness :
    fixRuleCat.stdin_arg = -1 ∧
    ((create_argv_command fixRuleCat [[99]]).2 = none
      ∧ childStdin (create_argv_command fixRuleCat [[99]]).2 = StdinSource.devNull) :=
  ⟨by decide, stdin_neg_one_no_args fixRuleCat [99] (by decide)⟩

/-- Claim C10: when the stdin_arg of the rule is positive and at least
the number of caller tokens, no argument is recorded as the stdin
payload, every caller argument after the command is passed in the child
argv, and the child standard input is connected to /dev/null. -/
theorem stdin_index_beyond_args (cline : Confline) (argv : List Bytes)
    (h1 : 0 < cline.stdin_arg)
    (h2 : (argv.length : Int) ≤ cline.stdin_arg)
    (hnf : ∀ a ∈ argv.drop 1, (0 : Nat) ∉ a) :
    (create_argv_command cline argv).2 = none
    ∧ ((create_argv_command cline argv).1.drop 1 = argv.drop 1)
    ∧ childStdin (create_argv_command cline argv).2 = StdinSource.devNull := by
  have hne : cline.stdin_arg ≠ -1 := by omega
  have hk : stdinIndex cline argv.length = cline.stdin_arg.toNat := by
    simp [stdinIndex, hne]
  have hlen : argv.length ≤ cline.stdin_arg.toNat := by omega
  have hdl : (argv.drop 1).length = argv.length - 1 := by simp
  have hnm := buildTail_no_match (argv.drop 1) 1 cline.stdin_arg.toNat
    (fun j hj1 hj2 => by rw [hdl] at hj2; omega)
  have hres : create_argv_command cline argv
      = (basename cline.program :: (argv.drop 1).map argCopy, none) := by
    simp only [create_argv_command, hk, hnm]
  rw [hres]
  refine ⟨rfl, ?_, rfl⟩
  calc (basename cline.program :: (argv.drop 1).map argCopy).drop 1
      = (argv.drop 1).map argCopy := by simp
    _ = argv.drop 1 := map_argCopy_id hnf

/-- Witness for C10 at a concrete rule and vector. -/
theorem stdin_index_beyond_args_witness :
    (0 < fixRuleFive.stdin_arg ∧ (2 : Int) ≤ fixRuleFive.stdin_arg) ∧
    ((create_argv_command fixRuleFive [[99], [104]]).2 = none
      ∧ ((create_argv_command fixRuleFive [[99], [104]]).1.drop 1 = [[104]])
      ∧ childStdin (create_argv_command fixRuleFive [[99], [104]]).2
          = StdinSource.devNull) :=
  ⟨by decide,
   stdin_index_beyond_args fixRuleFive [[99], [104]] (by decide) (by decide) (by decide)⟩

theorem drainLoop_spec (protocol : Nat) (passOutput passBreak : Nat → Bool) :
    ∀ (fuel n k : Nat), drainLoop protocol passOutput passBreak fuel n = some k →
      n ≤ k
      ∧ (sawOutputFlag protocol (passOutput k) = false ∨ passBreak k = true)
      ∧ ∀ j, n ≤ j → j < k →
          sawOutputFlag protocol (passOutput j) = true ∧ passBreak j = false := by
  intro fuel
  induction fuel with
  | zero => intro n k h; cases h
  | succ m ih =>
      intro n k h
      simp only [drainLoop] at h
      by_cases hc : (sawOutputFlag protocol (passOutput n) && !(passBreak n)) = true
      · rw [if_pos hc] at h
        obtain ⟨h1, h2, h3⟩ := ih (n + 1) k h
        simp only [Bool.and_eq_true, Bool.not_eq_true'] at hc
        refine ⟨by omega, h2, ?_⟩
        intro j hj1 hj2
        by_cases hjn : j = n
        · subst hjn
          exact ⟨hc.1, hc.2⟩
        · exact h3 j (by omega) hj2
      · rw [if_neg hc] at h
        have hk : n = k := Option.some.inj h
        subst hk
        simp only [Bool.and_eq_true, Bool.not_eq_true', not_and] at hc
        refine ⟨Nat.le_refl n, ?_, fun j hj1 hj2 => absurd hj2 (by omega)⟩
        by_cases hs : sawOutputFlag protocol (passOutput n) = true
        · right
          have hbf := hc hs
          cases hb : passBreak n with
          | false => exact absurd hb hbf
          | true => rfl
        · left
          cases hb : sawOutputFlag protocol (passOutput n) with
          | false => rfl
          | true => exact absurd hb hs

/-- Claim C3 counterexample: under protocol 1 a non-blocking pass that
processed child output, with no error, is not followed by another pass:
the drain stops after pass 0.  This refutes the claim that under both
protocols a pass processing some child output triggers another pass:
the protocol 1 read callbacks never set saw_output. -/
theorem drain_protocol1_counterexample :
    drainLoop 1 passAlwaysOutput passNeverBreak 5 0 = some 0
    ∧ passAlwaysOutput 0 = true ∧ passNeverBreak 0 = false := by decide

/-- Claim C3 amended: under protocol two or later the drain terminates
only when a full non-blocking pass produced no output or an error broke
the loop, and every earlier pass both produced output and did not break;
under protocol 1 the installed read callbacks never set saw_output, so
exactly one non-blocking pass runs. -/
theorem drain_loop_amended (protocol : Nat) (passOutput passBreak : Nat → Bool) :
    (2 ≤ protocol →
      ∀ fuel k, drainLoop protocol passOutput passBreak fuel 0 = some k →
        (passOutput k = false ∨ passBreak k = true)
        ∧ ∀ j, j < k → passOutput j = true ∧ passBreak j = false)
    ∧ (∀ fuel, 1 ≤ fuel → drainLoop 1 passOutput passBreak fuel 0 = some 0) := by
  constructor
  · intro hp fuel k h
    have hne : protocol ≠ 1 := by omega
    have hflag : ∀ b, sawOutputFlag protocol b = b := fun b => by
      simp [sawOutputFlag, hne]
    obtain ⟨_, h2, h3⟩ := drainLoop_spec protocol passOutput passBreak fuel 0 k h
    rw [hflag] at h2
    refine ⟨h2, fun j hj => ?_⟩
    have := h3 j (Nat.zero_le j) hj
    rwa [hflag] at this
  · intro fuel hf
    match fuel, hf with
    | m + 1, _ => simp [drainLoop, sawOutputFlag]

/-- Witness for the amended C3: a protocol 2 drain that stops at pass 3,
and a protocol 1 drain that stops at pass 0. -/
theorem drain_loop_amended_witness :
    (passUntilThree 3 = false ∨ passNeverBreak 3 = true)
    ∧ drainLoop 1 passUntilThree passNeverBreak 5 0 = some 0 :=
  ⟨((drain_loop_amended 2 passUntilThree passNeverBreak).1 (by decide) 10 3 (by decide)).1,
   (drain_loop_amended 1 passUntilThree passNeverBreak).2 5 (by decide)⟩

theorem terminalCount_singleton (f : Frame) (h : f.isTerminal = true) :
    terminalCount [f] = 1 := by
  simp [terminalCount, List.filter, h]

theorem sweepStep_not_qual (client : Client) (permit : Confline → Bytes → Bool)
    (oracle : Nat → ExecOutcome) (st : SweepState) (cl : Confline)
    (h : qualifies permit client.user cl = false) :
    sweepStep client permit oracle st cl = st := by
  unfold qualifies at h
  unfold sweepStep
  by_cases h1 : cl.subcommand = ALLb
  · simp only [h1, beq_self_eq_true, Bool.true_and] at h
    by_cases h2 : permit cl client.user = true
    · simp only [h2, Bool.true_and] at h
      cases hs : cl.summary with
      | none => simp [h1, h2]
      | some s => rw [hs] at h; simp at h
    · have h2f : permit cl client.user = false := by
        revert h2; cases permit cl client.user <;> simp
      simp [h1, h2f]
  · simp [h1]

theorem sweepStep_qual (client : Client) (permit : Confline → Bytes → Bool)
    (oracle : Nat → ExecOutcome) (st : SweepState) (cl : Confline)
    (h : qualifies permit client.user cl = true) :
    (sweepStep client permit oracle st cl).frames
        = st.frames ++ execFrames client (oracle st.k)
    ∧ (sweepStep client permit oracle st cl).k = st.k + 1
    ∧ (sweepStep client permit oracle st cl).ok_any = true := by
  unfold qualifies at h
  simp only [Bool.and_eq_true, beq_iff_eq, Option.isSome_iff_exists] at h
  obtain ⟨⟨h1, h2⟩, s, hs⟩ := h
  unfold sweepStep
  simp [h1, h2, hs]

theorem sweepFold_props (client : Client) (permit : Confline → Bytes → Bool)
    (oracle : Nat → ExecOutcome) :
    ∀ (l : List Confline) (st : SweepState),
      ((l.foldl (sweepStep client permit oracle) st).ok_any
          = (st.ok_any || l.any (qualifies permit client.user)))
      ∧ ((l.foldl (sweepStep client permit oracle) st).k
          = st.k + (l.filter (qualifies permit client.user)).length)
      ∧ terminalCount (l.foldl (sweepStep client permit oracle) st).frames
          = terminalCount st.frames
            + failsIn oracle st.k (l.filter (qualifies permit client.user)).length := by
  intro l
  induction l with
  | nil => intro st; simp [failsIn]
  | cons cl rest ih =>
      intro st
      simp only [List.foldl_cons]
      by_cases hq : qualifies permit client.user cl = true
      · obtain ⟨hframes, hk, hok⟩ :=
          sweepStep_qual client permit oracle st cl hq
        obtain ⟨r1, r2, r3⟩ := ih (sweepStep client permit oracle st cl)
        refine ⟨?_, ?_, ?_⟩
        · rw [r1, hok]
          simp [hq]
        · rw [r2, hk]
          simp only [List.filter_cons, hq, if_pos, List.length_cons]
          omega
        · rw [r3, hframes, hk, terminalCount_append, execFrames_terminalCount]
          simp only [List.filter_cons, hq, if_pos, List.length_cons, failsIn]
          omega
      · have hq' : qualifies permit client.user cl = false := by
          revert hq; cases qualifies permit client.user cl <;> simp
        rw [sweepStep_not_qual client permit oracle st cl hq']
        obtain ⟨r1, r2, r3⟩ := ih st
        refine ⟨?_, ?_, ?_⟩
        · rw [r1]; simp [hq']
        · rw [r2]; simp [List.filter_cons, hq']
        · rw [r3]; simp [List.filter_cons, hq']

/-- The sweep fold of server_send_summary, named for use in statements. -/
def sweepFold (client : Client) (config : List Confline)
    (permit : Confline → Bytes → Bool) (oracle : Nat → ExecOutcome) : SweepState :=
  config.foldl (sweepStep client permit oracle)
    { frames := [], launches := [], ok_any := false, status_all := 0,
      output := [], k := 0 }

/-- Claim C2 counterexample: a policy with one qualifying rule (subcommand
ALL, ACL admits, summary defined) whose execution fails at socketpair
creation.  Every server_exec invocation of the sweep fails, so the OR of
the per-invocation successes is false, yet ok_any is true and the server
emits the aggregated V2_STATUS terminal frame instead of replying
ERROR_UNKNOWN_COMMAND: ok_any records that a rule qualified, not that an
execution succeeded. -/
theorem summary_ok_any_counterexample :
    (server_send_summary fixClient2 [fixRuleSum] fixPermitAll fixOracleFail).1
      = [Frame.error ErrCode.internal, Frame.v2_status 0]
    ∧ ExecOutcome.ok (fixOracleFail 0) = false
    ∧ (sweepFold fixClient2 [fixRuleSum] fixPermitAll fixOracleFail).ok_any = true := by
  decide

/-- Claim C2 amended: ok_any is true exactly when some rule qualifies for
the sweep (subcommand ALL, ACL admits the user, summary token defined),
independently of the successes of the server_exec invocations; when no
rule qualifies the server replies ERROR_UNKNOWN_COMMAND, and when some
rule qualifies it emits the aggregated terminal frame (V1_OUTPUT for
protocol 1, V2_STATUS otherwise). -/
theorem summary_ok_any_amended (client : Client) (config : List Confline)
    (permit : Confline → Bytes → Bool) (oracle : Nat → ExecOutcome) :
    ((sweepFold client config permit oracle).ok_any
        = config.any (qualifies permit client.user))
    ∧ (config.any (qualifies permit client.user) = false →
        (server_send_summary client config permit oracle).1
          = (sweepFold client config permit oracle).frames
              ++ [Frame.error ErrCode.unknown_command])
    ∧ (config.any (qualifies permit client.user) = true →
        (server_send_summary client config permit oracle).1
          = (sweepFold client config permit oracle).frames
              ++ [if client.protocol = 1 then
                    Frame.v1_output (sweepFold client config permit oracle).output
                      (sweepFold client config permit oracle).status_all
                  else
                    Frame.v2_status (sweepFold client config permit oracle).status_all]) := by
  obtain ⟨r1, _, _⟩ := sweepFold_props client permit oracle config
    { frames := [], launches := [], ok_any := false, status_all := 0,
      output := [], k := 0 }
  have hok : (sweepFold client config permit oracle).ok_any
      = config.any (qualifies permit client.user) := by
    rw [sweepFold, r1]
    simp
  refine ⟨hok, ?_, ?_⟩
  · intro hfalse
    have : (sweepFold client config permit oracle).ok_any = false := by
      rw [hok, hfalse]
    simp only [server_send_summary, sweepFold] at this ⊢
    rw [this]
    simp
  · intro htrue
    have : (sweepFold client config permit oracle).ok_any = true := by
      rw [hok, htrue]
    simp only [server_send_summary, sweepFold] at this ⊢
    rw [this]
    simp

/-- Witness for the amended C2 on concrete policies: with no qualifying
rule the reply is ERROR_UNKNOWN_COMMAND, and with a qualifying rule
whose execution fails the aggregated V2_STATUS frame is emitted. -/
theorem summary_ok_any_amended_witness :
    (server_send_summary fixClient2 [fixRuleLit] fixPermitAll fixOracleFail).1
      = (sweepFold fixClient2 [fixRuleLit] fixPermitAll fixOracleFail).frames
          ++ [Frame.error ErrCode.unknown_command]
    ∧ (server_send_summary fixClient2 [fixRuleSum] fixPermitAll fixOracleFail).1
      = (sweepFold fixClient2 [fixRuleSum] fixPermitAll fixOracleFail).frames
          ++ [if fixClient2.protocol = 1 then
                Frame.v1_output (sweepFold fixClient2 [fixRuleSum] fixPermitAll fixOracleFail).output
                  (sweepFold fixClient2 [fixRuleSum] fixPermitAll fixOracleFail).status_all
              else
                Frame.v2_status (sweepFold fixClient2 [fixRuleSum] fixPermitAll fixOracleFail).status_all] :=
  ⟨(summary_ok_any_amended fixClient2 [fixRuleLit] fixPermitAll fixOracleFail).2.1 (by decide),
   (summary_ok_any_amended fixClient2 [fixRuleSum] fixPermitAll fixOracleFail).2.2 (by decide)⟩

theorem server_send_summary_terminalCount (client : Client) (config : List Confline)
    (permit : Confline → Bytes → Bool) (oracle : Nat → ExecOutcome) :
    terminalCount (server_send_summary client config permit oracle).1
      = failsIn oracle 0 ((config.filter (qualifies permit client.user)).length) + 1 := by
  obtain ⟨_, _, r3⟩ := sweepFold_props client permit oracle config
    { frames := [], launches := [], ok_any := false, status_all := 0,
      output := [], k := 0 }
  simp only [server_send_summary]
  split <;>
    rw [terminalCount_append, r3] <;>
    by_cases hproto : client.protocol = 1 <;>
      simp [hproto, terminalCount, List.filter, Frame.isTerminal]

theorem exec_and_status_terminalCount (client : Client) (o : ExecOutcome) :
    terminalCount (execFrames client o ++
      (if o.ok then
        [if client.protocol = 1 then Frame.v1_output o.v1out o.statusOf
         else Frame.v2_status o.statusOf]
       else [])) = 1 := by
  rw [terminalCount_append, execFrames_terminalCount]
  cases ho : o.ok <;>
    by_cases hproto : client.protocol = 1 <;>
      simp [ho, hproto, terminalCount, List.filter, Frame.isTerminal]

theorem runWithRule_terminalCount (client : Client) (permit : Confline → Bytes → Bool)
    (oracle : Nat → ExecOutcome) (pre : List Frame) (cline : Option Confline)
    (help : Bool) (hsub : Option Bytes) (argv : List Bytes) :
    terminalCount (runWithRule client permit oracle pre cline help hsub argv).frames
      = terminalCount pre + 1 := by
  by_cases hnc : nulCheckFrom cline help 1 argv.tail = false
  · have hfr : (runWithRule client permit oracle pre cline help hsub argv).frames
        = pre ++ [Frame.error ErrCode.bad_command] := by
      simp [runWithRule, hnc]
    rw [hfr, terminalCount_append]
    simp [terminalCount, List.filter, Frame.isTerminal]
  · have hnc' : nulCheckFrom cline help 1 argv.tail = true := by
      revert hnc; cases nulCheckFrom cline help 1 argv.tail <;> simp
    cases cline with
    | none =>
        have hfr : (runWithRule client permit oracle pre none help hsub argv).frames
            = pre ++ [Frame.error ErrCode.unknown_command] := by
          simp [runWithRule, hnc']
        rw [hfr, terminalCount_append]
        simp [terminalCount, List.filter, Frame.isTerminal]
    | some cl =>
        by_cases hp : permit cl client.user = false
        · have hfr : (runWithRule client permit oracle pre (some cl) help hsub argv).frames
              = pre ++ [Frame.error ErrCode.access] := by
            simp [runWithRule, hnc', hp]
          rw [hfr, terminalCount_append]
          simp [terminalCount, List.filter, Frame.isTerminal]
        · have hp' : permit cl client.user = true := by
            revert hp; cases permit cl client.user <;> simp
          by_cases hhelp : help = true
          · subst hhelp
            cases hct : cl.help with
            | none =>
                have hfr : (runWithRule client permit oracle pre (some cl) true hsub argv).frames
                    = pre ++ [Frame.error ErrCode.no_help] := by
                  simp [runWithRule, hnc', hp', hct]
                rw [hfr, terminalCount_append]
                simp [terminalCount, List.filter, Frame.isTerminal]
            | some helptok =>
                have hfr : (runWithRule client permit oracle pre (some cl) true hsub argv).frames
                    = pre ++ (execFrames client (oracle 0) ++
                        (if (oracle 0).ok then
                          [if client.protocol = 1 then
                            Frame.v1_output (oracle 0).v1out (oracle 0).statusOf
                           else Frame.v2_status (oracle 0).statusOf]
                         else [])) := by
                  simp [runWithRule, hnc', hp', hct]
                rw [hfr, terminalCount_append, exec_and_status_terminalCount]
          · have hhf : help = false := by
              revert hhelp; cases help <;> simp
            subst hhf
            have hfr : (runWithRule client permit oracle pre (some cl) false hsub argv).frames
                = pre ++ (execFrames client (oracle 0) ++
                    (if (oracle 0).ok then
                      [if client.protocol = 1 then
                        Frame.v1_output (oracle 0).v1out (oracle 0).statusOf
                       else Frame.v2_status (oracle 0).statusOf]
                     else [])) := by
              simp [runWithRule, hnc', hp']
            rw [hfr, terminalCount_append, exec_and_status_terminalCount]

/-- Claim C1 counterexample: a help request with four tokens against an
empty policy emits two terminal frames, ERROR_TOOMANY_ARGS followed by
ERROR_UNKNOWN_COMMAND: the dispatcher replies ERROR_TOOMANY_ARGS and then
continues processing, so the invocation does not emit exactly one
terminal frame. -/
theorem terminal_frame_count_counterexample :
    (server_run_command fixClient2 [] fixPermitAll fixOracleOk
        [HELPb, [120], [121], [122]]).frames
      = [Frame.error ErrCode.toomany_args, Frame.error ErrCode.unknown_command]
    ∧ terminalCount (server_run_command fixClient2 [] fixPermitAll fixOracleOk
        [HELPb, [120], [121], [122]]).frames ≠ 1 := by
  decide

/-- Claim C1 amended: the number of terminal frames emitted by one
invocation of server_run_command is exactly one, plus one
ERROR_TOOMANY_ARGS frame when an over-long help request continues
processing, plus one ERROR_INTERNAL frame for each qualifying rule of a
summary sweep whose execution fails. -/
theorem terminal_frame_count_amended (client : Client) (config : List Confline)
    (permit : Confline → Bytes → Bool) (oracle : Nat → ExecOutcome)
    (argv : List Bytes) :
    terminalCount (server_run_command client config permit oracle argv).frames
      = 1 + (if toomanyFlag config argv then 1 else 0)
        + summaryFailCount config permit client.user oracle argv := by
  cases argv with
  | nil =>
      simp [server_run_command, toomanyFlag, summaryFailCount, isSummaryPath,
        terminalCount, List.filter, Frame.isTerminal]
  | cons a0 rest =>
      by_cases hn : headNul (a0 :: rest) = true
      · have hlhs : server_run_command client config permit oracle (a0 :: rest)
            = { frames := [Frame.error ErrCode.bad_command], launches := [] } := by
          simp [server_run_command, hn]
        have htm : toomanyFlag config (a0 :: rest) = false := by
          simp [toomanyFlag, hn]
        have hsp : isSummaryPath config (a0 :: rest) = false := by
          cases rest with
          | nil => simp [isSummaryPath, hn]
          | cons b l => rfl
        rw [hlhs]
        simp [htm, summaryFailCount, hsp, terminalCount, List.filter, Frame.isTerminal]
      · have hn' : headNul (a0 :: rest) = false := by
          revert hn; cases headNul (a0 :: rest) <;> simp
        cases hf : find_config_line config (some (cStr a0)) (rest.head?.map cStr) with
        | some cl =>
            have hrun : server_run_command client config permit oracle (a0 :: rest)
                = runWithRule client permit oracle [] (some cl) false none (a0 :: rest) := by
              simp [server_run_command, hn', hf]
            have htm : toomanyFlag config (a0 :: rest) = false := by
              simp [toomanyFlag, hf]
            have hsp : summaryFailCount config permit client.user oracle (a0 :: rest) = 0 := by
              cases rest with
              | nil =>
                  have hf2 : find_config_line config (some (cStr a0)) none = some cl := by
                    simpa using hf
                  simp [summaryFailCount, isSummaryPath, hf2]
              | cons b l => simp [summaryFailCount, isSummaryPath]
            rw [hrun, runWithRule_terminalCount, htm, hsp]
            simp [terminalCount]
        | none =>
            by_cases hh : cStr a0 = HELPb
            · cases rest with
              | nil =>
                  have hf2 : find_config_line config (some HELPb) none = none := by
                    rw [← hh]; simpa using hf
                  have hrun : server_run_command client config permit oracle [a0]
                      = { frames := [] ++ (server_send_summary client config permit oracle).1,
                          launches := (server_send_summary client config permit oracle).2 } := by
                    simp [server_run_command, hn', hf2, hh]
                  have htm : toomanyFlag config [a0] = false := by
                    simp [toomanyFlag]
                  have hsp : isSummaryPath config [a0] = true := by
                    simp [isSummaryPath, hn', hf2, hh]
                  rw [hrun]
                  simp only [List.nil_append]
                  rw [server_send_summary_terminalCount, htm]
                  simp [summaryFailCount, hsp]
                  omega
              | cons s1 rest2 =>
                  have hf2 : find_config_line config (some HELPb) (some (cStr s1)) = none := by
                    rw [← hh]; simpa using hf
                  have hrun : server_run_command client config permit oracle (a0 :: s1 :: rest2)
                      = runWithRule client permit oracle
                          (if 4 ≤ (a0 :: s1 :: rest2).length then
                            [Frame.error ErrCode.toomany_args] else [])
                          (find_config_line config (some (cStr s1)) (rest2.head?.map cStr))
                          true (rest2.head?.map cStr) (a0 :: s1 :: rest2) := by
                    simp [server_run_command, hn', hf2, hh]
                  have htm : toomanyFlag config (a0 :: s1 :: rest2)
                      = decide (4 ≤ (a0 :: s1 :: rest2).length) := by
                    simp [toomanyFlag, hn', hf2, hh]
                  have hsp : summaryFailCount config permit client.user oracle
                      (a0 :: s1 :: rest2) = 0 := by
                    simp [summaryFailCount, isSummaryPath]
                  rw [hrun, runWithRule_terminalCount, htm, hsp]
                  by_cases h4 : 4 ≤ (a0 :: s1 :: rest2).length
                  · have h2 : 2 ≤ rest2.length := by
                      simp only [List.length_cons] at h4; omega
                    simp [h4, h2, terminalCount, List.filter, Frame.isTerminal]
                  · have h2 : ¬ 2 ≤ rest2.length := by
                      simp only [List.length_cons] at h4; omega
                    simp [h4, h2, terminalCount]
            · have hrun : server_run_command client config permit oracle (a0 :: rest)
                  = runWithRule client permit oracle [] none false none (a0 :: rest) := by
                simp [server_run_command, hn', hf, hh]
              have htm : toomanyFlag config (a0 :: rest) = false := by
                simp [toomanyFlag, hh]
              have hsp : summaryFailCount config permit client.user oracle (a0 :: rest) = 0 := by
                cases rest with
                | nil =>
                    simp only [List.head?] at hf
                    simp [summaryFailCount, isSummaryPath, hh]
                | cons b l => simp [summaryFailCount, isSummaryPath]
              rw [hrun, runWithRule_terminalCount, htm, hsp]
              simp [terminalCount]

theorem nulCheckFrom_true_all :
    ∀ (l : List Bytes) (cline : Option Confline) (help : Bool) (i0 : Nat),
      nulCheckFrom cline help i0 l = true →
      ∀ j a, l.get? j = some a → a.contains 0 = true →
        ∃ cl, cline = some cl ∧
          ((help = false ∧ ((i0 + j : Nat) : Int) = cl.stdin_arg)
            ∨ (j = l.length - 1 ∧ cl.stdin_arg = -1)) := by
  intro l
  induction l with
  | nil => intro cline help i0 _ j a hj; cases hj
  | cons b rest ih =>
      intro cline help i0 hchk j a hj hcont
      simp only [nulCheckFrom, Bool.and_eq_true, Bool.or_eq_true] at hchk
      cases j with
      | zero =>
          have hab : b = a := by
            simpa using hj
          rcases hchk.1 with hex | hnc
          · cases cline with
            | none => simp at hex
            | some cl =>
                simp only [Bool.or_eq_true, Bool.and_eq_true, beq_iff_eq,
                  Bool.not_eq_true'] at hex
                rcases hex with ⟨hh, hstdin⟩ | ⟨hre, hsa⟩
                · exact ⟨cl, rfl, Or.inl ⟨hh, by simpa using hstdin⟩⟩
                · refine ⟨cl, rfl, Or.inr ⟨?_, hsa⟩⟩
                  have hre' : rest = [] := List.isEmpty_iff.mp hre
                  simp [hre']
          · rw [hab] at hnc
            simp only [Bool.not_eq_true'] at hnc
            rw [hnc] at hcont
            cases hcont
      | succ jp =>
          have hjp : rest.get? jp = some a := hj
          obtain ⟨cl, hcl, hcase⟩ := ih cline help (i0 + 1) hchk.2 jp a hjp hcont
          refine ⟨cl, hcl, ?_⟩
          rcases hcase with ⟨hh, heq⟩ | ⟨hlen, hsa⟩
          · left
            refine ⟨hh, ?_⟩
            rw [← heq]
            omega
          · right
            have hlt : jp < rest.length := by
              by_contra hge
              rw [List.get?_eq_none.mpr (by omega)] at hjp
              cases hjp
            refine ⟨?_, hsa⟩
            simp only [List.length_cons]
            omega

theorem runWithRule_badcheck (client : Client) (permit : Confline → Bytes → Bool)
    (oracle : Nat → ExecOutcome) (pre : List Frame) (cline : Option Confline)
    (help : Bool) (hsub : Option Bytes) (argv : List Bytes)
    (hnc : nulCheckFrom cline help 1 argv.tail = false) :
    runWithRule client permit oracle pre cline help hsub argv
      = { frames := pre ++ [Frame.error ErrCode.bad_command], launches := [] } := by
  simp [runWithRule, hnc]

/-- Claim C6: server_run_command replies ERROR_BAD_COMMAND and aborts the
invocation without calling server_exec (so without forking) whenever the
caller argv is empty, or the command or subcommand contains a nul byte,
or some later argument that is neither the stdin argument of the matched
rule nor the last argument under a stdin_arg of -1 contains a nul
byte. -/
theorem run_command_bad_command (client : Client) (config : List Confline)
    (permit : Confline → Bytes → Bool) (oracle : Nat → ExecOutcome) (argv : List Bytes)
    (h : argv = [] ∨ headNul argv = true ∨
      (∃ i a, 1 ≤ i ∧ argv.get? i = some a ∧ a.contains 0 = true ∧
        ¬ exemptSpec (matchedRule config argv) argv.length i)) :
    (server_run_command client config permit oracle argv).frames.getLast?
        = some (Frame.error ErrCode.bad_command)
    ∧ (server_run_command client config permit oracle argv).launches = [] := by
  rcases h with h | h | ⟨i, a, hi1, hget, hcont, hex⟩
  · subst h
    exact ⟨rfl, rfl⟩
  · cases argv with
    | nil => exact ⟨rfl, rfl⟩
    | cons a0 rest =>
        have hrun : server_run_command client config permit oracle (a0 :: rest)
            = { frames := [Frame.error ErrCode.bad_command], launches := [] } := by
          simp [server_run_command, h]
        rw [hrun]
        exact ⟨rfl, rfl⟩
  · cases argv with
    | nil => cases hget
    | cons a0 rest =>
        by_cases hn : headNul (a0 :: rest) = true
        · have hrun : server_run_command client config permit oracle (a0 :: rest)
              = { frames := [Frame.error ErrCode.bad_command], launches := [] } := by
            simp [server_run_command, hn]
          rw [hrun]
          exact ⟨rfl, rfl⟩
        · have hn' : headNul (a0 :: rest) = false := by
            revert hn; cases headNul (a0 :: rest) <;> simp
          obtain ⟨ip, hip⟩ : ∃ ip, i = ip + 1 := ⟨i - 1, by omega⟩
          subst hip
          have hrg : rest.get? ip = some a := hget
          have hlt : ip < rest.length := by
            by_contra hge
            rw [List.get?_eq_none.mpr (by omega)] at hrg
            cases hrg
          have hncf : ∀ hp : Bool,
              nulCheckFrom (matchedRule config (a0 :: rest)) hp 1 rest = false := by
            intro hp
            by_contra hc
            have hc' : nulCheckFrom (matchedRule config (a0 :: rest)) hp 1 rest = true := by
              revert hc
              cases nulCheckFrom (matchedRule config (a0 :: rest)) hp 1 rest <;> simp
            obtain ⟨cl, hcl, hcase⟩ :=
              nulCheckFrom_true_all rest _ hp 1 hc' ip a hrg hcont
            apply hex
            rw [hcl]
            unfold exemptSpec
            rcases hcase with ⟨_, heq⟩ | ⟨hlen, hsa⟩
            · left
              rw [← heq]
              omega
            · right
              refine ⟨?_, hsa⟩
              simp only [List.length_cons]
              omega
          cases hf : find_config_line config (some (cStr a0)) (rest.head?.map cStr) with
          | some cl =>
              have hm : matchedRule config (a0 :: rest) = some cl := by
                simp [matchedRule, hf]
              have hrun : server_run_command client config permit oracle (a0 :: rest)
                  = runWithRule client permit oracle [] (some cl) false none (a0 :: rest) := by
                simp [server_run_command, hn', hf]
              have hnc2 : nulCheckFrom (some cl) false 1 (a0 :: rest).tail = false := by
                have h2 := hncf false
                rw [hm] at h2
                exact h2
              rw [hrun, runWithRule_badcheck client permit oracle
                [] (some cl) false none (a0 :: rest) hnc2]
              exact ⟨rfl, rfl⟩
          | none =>
              by_cases hh : cStr a0 = HELPb
              · cases rest with
                | nil => exact absurd hrg (by simp)
                | cons s1 rest2 =>
                    have hf2 : find_config_line config (some HELPb) (some (cStr s1)) = none := by
                      rw [← hh]
                      simpa using hf
                    have hm : matchedRule config (a0 :: s1 :: rest2)
                        = find_config_line config (some (cStr s1)) (rest2.head?.map cStr) := by
                      simp [matchedRule, hf2, hh]
                    have hrun : server_run_command client config permit oracle (a0 :: s1 :: rest2)
                        = runWithRule client permit oracle
                            (if 4 ≤ (a0 :: s1 :: rest2).length then
                              [Frame.error ErrCode.toomany_args] else [])
                            (find_config_line config (some (cStr s1)) (rest2.head?.map cStr))
                            true (rest2.head?.map cStr) (a0 :: s1 :: rest2) := by
                      simp [server_run_command, hn', hf2, hh]
                    have hnc2 : nulCheckFrom
                        (find_config_line config (some (cStr s1)) (rest2.head?.map cStr))
                        true 1 (a0 :: s1 :: rest2).tail = false := by
                      have h2 := hncf true
                      rw [hm] at h2
                      exact h2
                    rw [hrun, runWithRule_badcheck client permit oracle _ _ true
                      (rest2.head?.map cStr) (a0 :: s1 :: rest2) hnc2]
                    exact ⟨List.getLast?_concat _, rfl⟩
              · have hm : matchedRule config (a0 :: rest) = none := by
                  simp [matchedRule, hf, hh]
                have hrun : server_run_command client config permit oracle (a0 :: rest)
                    = runWithRule client permit oracle [] none false none (a0 :: rest) := by
                  simp [server_run_command, hn', hf, hh]
                have hnc2 : nulCheckFrom (none : Option Confline) false 1
                    (a0 :: rest).tail = false := by
                  have h2 := hncf false
                  rw [hm] at h2
                  exact h2
                rw [hrun, runWithRule_badcheck client permit oracle
                  [] none false none (a0 :: rest) hnc2]
                exact ⟨rfl, rfl⟩

/-- Witness for C6: a request whose second argument holds a nul byte is
rejected with ERROR_BAD_COMMAND and no server_exec call is made. -/
theorem run_command_bad_command_witness :
    (server_run_command fixClient2 [fixRuleAll] fixPermitAll fixOracleOk
        [[99], [0]]).frames.getLast? = some (Frame.error ErrCode.bad_command)
    ∧ (server_run_command fixClient2 [fixRuleAll] fixPermitAll fixOracleOk
        [[99], [0]]).launches = [] :=
  run_command_bad_command fixClient2 [fixRuleAll] fixPermitAll fixOracleOk
    [[99], [0]] (Or.inr (Or.inl (by decide)))

theorem nulCheckFrom_false_at (l : List Bytes) (cline : Option Confline)
    (help : Bool) (i0 j : Nat) (a : Bytes)
    (hj : l.get? j = some a) (hc : a.contains 0 = true)
    (hnex : ∀ cl, cline = some cl →
      ¬((help = false ∧ ((i0 + j : Nat) : Int) = cl.stdin_arg)
        ∨ (j = l.length - 1 ∧ cl.stdin_arg = -1))) :
    nulCheckFrom cline help i0 l = false := by
  by_contra hb
  have ht : nulCheckFrom cline help i0 l = true := by
    revert hb
    cases nulCheckFrom cline help i0 l <;> simp
  obtain ⟨cl, hcl, hcase⟩ := nulCheckFrom_true_all l cline help i0 ht j a hj hc
  exact hnex cl hcl hcase

theorem nulCheckFrom_true_of :
    ∀ (l : List Bytes) (cline : Option Confline) (help : Bool) (i0 : Nat),
      (∀ j a, l.get? j = some a → a.contains 0 = true →
        ∃ cl, cline = some cl ∧
          ((help = false ∧ ((i0 + j : Nat) : Int) = cl.stdin_arg)
            ∨ (j = l.length - 1 ∧ cl.stdin_arg = -1))) →
      nulCheckFrom cline help i0 l = true := by
  intro l
  induction l with
  | nil => intro cline help i0 _; rfl
  | cons b rest ih =>
      intro cline help i0 hyp
      simp only [nulCheckFrom, Bool.and_eq_true, Bool.or_eq_true]
      constructor
      · cases hbc : b.contains 0 with
        | false => right; simp [hbc]
        | true =>
            left
            obtain ⟨cl, hcl, hcase⟩ := hyp 0 b rfl hbc
            subst hcl
            rcases hcase with ⟨hh, heq⟩ | ⟨hlen, hsa⟩
            · simp only [Bool.or_eq_true, Bool.and_eq_true, Bool.not_eq_true',
                beq_iff_eq]
              left
              exact ⟨hh, by simpa using heq⟩
            · have hre : rest = [] := by
                simp only [List.length_cons] at hlen
                have : rest.length = 0 := by omega
                exact List.length_eq_zero.mp this
              simp only [Bool.or_eq_true, Bool.and_eq_true, beq_iff_eq,
                List.isEmpty_iff]
              right
              exact ⟨hre, hsa⟩
      · apply ih cline help (i0 + 1)
        intro j a hj hc
        obtain ⟨cl, hcl, hcase⟩ := hyp (j + 1) a hj hc
        refine ⟨cl, hcl, ?_⟩
        rcases hcase with ⟨hh, heq⟩ | ⟨hlen, hsa⟩
        · left
          refine ⟨hh, ?_⟩
          rw [← heq]
          omega
        · right
          refine ⟨?_, hsa⟩
          have hlt : j + 1 < (b :: rest).length := by
            by_contra hge
            have : rest.get? j = none := List.get?_eq_none.mpr (by
              simp only [List.length_cons] at hge
              omega)
            rw [this] at hj
            cases hj
          simp only [List.length_cons] at hlen hlt ⊢
          omega

theorem bad_command_not_in_execFrames (client : Client) (o : ExecOutcome) :
    Frame.error ErrCode.bad_command ∉ execFrames client o := by
  cases o with
  | spFail => simp [execFrames]
  | forkFail => simp [execFrames]
  | ioError chunks =>
      simp only [execFrames, List.mem_append]
      rintro (hmem | hmem)
      · split at hmem
        · simp at hmem
        · obtain ⟨c, _, hc⟩ := List.mem_map.mp hmem
          cases hc
      · simp at hmem
  | success s out chunks =>
      simp only [execFrames]
      split
      · simp
      · intro hmem
        obtain ⟨c, _, hc⟩ := List.mem_map.mp hmem
        cases hc

/-- Fixture: a rule whose second argument index is the stdin argument and
which defines a help token. -/
def fixRuleHelpTwo : Confline :=
  { command := [99], subcommand := ALLb, program := [112], stdin_arg := 2,
    help := some [104] }

/-- Fixture: a rule delivering the last argument on stdin, with a help
token. -/
def fixRuleHelpCat : Confline :=
  { command := [99], subcommand := ALLb, program := [112], stdin_arg := -1,
    help := some [104] }

/-- Claim C9 (implicit): on a help request (initial lookup failed, the
command is help, a subcommand is present, and the retry lookup matched a
rule), the nul-byte exemption for the argument at the stdin_arg index of
the rule is not applied: such an argument containing a nul byte is
rejected with ERROR_BAD_COMMAND and no server_exec is performed.  Only
the exemption for the last argument when stdin_arg is -1 applies
regardless of help mode: with stdin_arg -1, all other arguments nul-free,
the ACL passing and a help token defined, the request proceeds to the
help execution with no ERROR_BAD_COMMAND frame. -/
theorem help_mode_stdin_nul (client : Client) (config : List Confline)
    (permit : Confline → Bytes → Bool) (oracle : Nat → ExecOutcome)
    (a0 s1 : Bytes) (rest2 : List Bytes) (cl : Confline)
    (hn : headNul (a0 :: s1 :: rest2) = false)
    (hcmd : cStr a0 = HELPb)
    (h0 : find_config_line config (some (cStr a0)) (some (cStr s1)) = none)
    (hm : find_config_line config (some (cStr s1)) (rest2.head?.map cStr) = some cl) :
    (∀ i ax, 1 ≤ i → (a0 :: s1 :: rest2).get? i = some ax → ax.contains 0 = true →
        cl.stdin_arg = (i : Int) →
        (server_run_command client config permit oracle (a0 :: s1 :: rest2)).frames.getLast?
            = some (Frame.error ErrCode.bad_command)
        ∧ (server_run_command client config permit oracle (a0 :: s1 :: rest2)).launches = [])
    ∧ (cl.stdin_arg = -1 →
        (∀ j aj, 1 ≤ j → j < (a0 :: s1 :: rest2).length - 1 →
            (a0 :: s1 :: rest2).get? j = some aj → aj.contains 0 = false) →
        permit cl client.user = true →
        ∀ htok, cl.help = some htok →
        Frame.error ErrCode.bad_command ∉
            (server_run_command client config permit oracle (a0 :: s1 :: rest2)).frames
        ∧ (server_run_command client config permit oracle (a0 :: s1 :: rest2)).launches
            = [create_argv_help cl.program htok (rest2.head?.map cStr)]) := by
  have hf2 : find_config_line config (some HELPb) (some (cStr s1)) = none := by
    rw [← hcmd]
    exact h0
  have hrun : server_run_command client config permit oracle (a0 :: s1 :: rest2)
      = runWithRule client permit oracle
          (if 4 ≤ (a0 :: s1 :: rest2).length then
            [Frame.error ErrCode.toomany_args] else [])
          (some cl) true (rest2.head?.map cStr) (a0 :: s1 :: rest2) := by
    simp [server_run_command, hn, hf2, hcmd, hm]
  constructor
  · intro i ax hi1 hget hcont hstdin
    obtain ⟨ip, hip⟩ : ∃ ip, i = ip + 1 := ⟨i - 1, by omega⟩
    subst hip
    have hrg : (s1 :: rest2).get? ip = some ax := hget
    have hnc : nulCheckFrom (some cl) true 1 (s1 :: rest2) = false := by
      apply nulCheckFrom_false_at (s1 :: rest2) (some cl) true 1 ip ax hrg hcont
      intro cl' hcl'
      have hcc : cl' = cl := by
        injection hcl' with hcl'
        exact hcl'.symm
      subst hcc
      rintro (⟨hfalse, _⟩ | ⟨_, hneg⟩)
      · cases hfalse
      · rw [hstdin] at hneg
        omega
    rw [hrun, runWithRule_badcheck client permit oracle _ (some cl) true
      (rest2.head?.map cStr) (a0 :: s1 :: rest2) hnc]
    exact ⟨List.getLast?_concat _, rfl⟩
  · intro hsa hnf hperm htok hct
    have hnc : nulCheckFrom (some cl) true 1 (s1 :: rest2) = true := by
      apply nulCheckFrom_true_of (s1 :: rest2) (some cl) true 1
      intro j aj hj hc
      refine ⟨cl, rfl, ?_⟩
      by_cases hjl : j = (s1 :: rest2).length - 1
      · right
        exact ⟨hjl, hsa⟩
      · exfalso
        have hlt : j < (s1 :: rest2).length := by
          by_contra hge
          rw [List.get?_eq_none.mpr (by omega)] at hj
          cases hj
        have hnfj := hnf (j + 1) aj (by omega)
          (by simp only [List.length_cons] at hlt hjl ⊢; omega) hj
        rw [hnfj] at hc
        cases hc
    have hfr : (runWithRule client permit oracle
        (if 4 ≤ (a0 :: s1 :: rest2).length then
          [Frame.error ErrCode.toomany_args] else [])
        (some cl) true (rest2.head?.map cStr) (a0 :: s1 :: rest2)).frames
          = (if 4 ≤ (a0 :: s1 :: rest2).length then
              [Frame.error ErrCode.toomany_args] else [])
            ++ (execFrames client (oracle 0) ++
              (if (oracle 0).ok then
                [if client.protocol = 1 then
                  Frame.v1_output (oracle 0).v1out (oracle 0).statusOf
                 else Frame.v2_status (oracle 0).statusOf]
               else [])) := by
      simp [runWithRule, hnc, hperm, hct]
    have hl : (runWithRule client permit oracle
        (if 4 ≤ (a0 :: s1 :: rest2).length then
          [Frame.error ErrCode.toomany_args] else [])
        (some cl) true (rest2.head?.map cStr) (a0 :: s1 :: rest2)).launches
          = [create_argv_help cl.program htok (rest2.head?.map cStr)] := by
      simp [runWithRule, hnc, hperm, hct]
    constructor
    · rw [hrun, hfr]
      intro hmem
      rcases List.mem_append.mp hmem with hmem | hmem
      · revert hmem
        split <;> simp
      · rcases List.mem_append.mp hmem with hmem | hmem
        · exact bad_command_not_in_execFrames client (oracle 0) hmem
        · revert hmem
          split
          · split <;> simp
          · simp
    · rw [hrun, hl]

/-- Witness for C9: a help request whose stdin-index argument holds a nul
byte is rejected, while with a stdin_arg of -1 the same shaped request
proceeds to the help execution. -/
theorem help_mode_stdin_nul_witness :
    ((server_run_command fixClient2 [fixRuleHelpTwo] fixPermitAll fixOracleOk
        [HELPb, [99], [0]]).frames.getLast? = some (Frame.error ErrCode.bad_command)
      ∧ (server_run_command fixClient2 [fixRuleHelpTwo] fixPermitAll fixOracleOk
        [HELPb, [99], [0]]).launches = [])
    ∧ (Frame.error ErrCode.bad_command ∉
        (server_run_command fixClient2 [fixRuleHelpCat] fixPermitAll fixOracleOk
          [HELPb, [99], [0]]).frames
      ∧ (server_run_command fixClient2 [fixRuleHelpCat] fixPermitAll fixOracleOk
          [HELPb, [99], [0]]).launches
        = [create_argv_help fixRuleHelpCat.program [104]
            (([[0]] : List Bytes).head?.map cStr)]) :=
  ⟨(help_mode_stdin_nul fixClient2 [fixRuleHelpTwo] fixPermitAll fixOracleOk
      HELPb [99] [[0]] fixRuleHelpTwo (by decide) (by decide) (by decide) (by decide)).1
      2 [0] (by decide) (by decide) (by decide) (by decide),
   (help_mode_stdin_nul fixClient2 [fixRuleHelpCat] fixPermitAll fixOracleOk
      HELPb [99] [[0]] fixRuleHelpCat (by decide) (by decide) (by decide) (by decide)).2
      (by decide)
      (by
        intro j aj h1 h2 hget
        simp only [List.length_cons, List.length_nil] at h2
        have hj : j = 1 := by omega
        subst hj
        have haj : ([99] : Bytes) = aj := by simpa using hget
        subst haj
        decide)
      (by decide) [104] (by decide)⟩
